import Mathlib

/-!
Verification of the crypto-slack-hash-trx transaction-logging pipeline.

The development shallowly embeds the Python sources:
  * `sheets_manager.py` — `SheetsManager` (duplicate check, row preparation,
    idempotent append protocol);
  * `phase3_main_bot_fixed.py` — hash validation, command parsing, fetch
    classification, price oracle;
  * `phase3_main_bot.py` — the token-transfer resolution of
    `format_basic_status` (which differs from the fixed version).

JSON payloads are modelled by `JValue`; Python numbers (int and float) are
idealized as `Int` and the exact fraction type `Frac` (exact arithmetic; no claim below depends on binary
floating-point rounding).  Python expressions that can raise are modelled in
`Option`, with `none` standing for the exception that the surrounding
`try/except` catches.
-/

namespace CryptoBot

/-- An exact fraction with explicit numerator and denominator, used to
idealize Python's float arithmetic.  It is kept unnormalized (no gcd), so
every operation is plain integer arithmetic; all fractions built by the
embedding have a positive denominator. -/
structure Frac where
  num : Int
  den : Int
deriving Repr, DecidableEq

/-- Embed an integer. -/
def Frac.ofInt (n : Int) : Frac := ⟨n, 1⟩

instance : Add Frac := ⟨fun a b => ⟨a.num * b.den + b.num * a.den, a.den * b.den⟩⟩

instance : Mul Frac := ⟨fun a b => ⟨a.num * b.num, a.den * b.den⟩⟩

instance : Div Frac := ⟨fun a b => ⟨a.num * b.den, a.den * b.num⟩⟩

/-- Floor `⌊q⌋` for a positive-denominator fraction. -/
def Frac.floor (q : Frac) : Int := Int.fdiv q.num q.den

/-- Truncation toward zero (Python `int(float)`), for a positive
denominator. -/
def Frac.trunc (q : Frac) : Int := Int.tdiv q.num q.den

/-- A JSON-like value as produced by `response.json()` in the Python sources.
`num` is Python's float, idealized as an exact fraction. -/
inductive JValue where
  | null : JValue
  | bool : Bool → JValue
  | int : Int → JValue
  | num : Frac → JValue
  | str : String → JValue
  | arr : List JValue → JValue
  | obj : List (String × JValue) → JValue
deriving Repr

/-- Python truthiness (`if v:`): `None`, `False`, `0`, `0.0`, `""`, `[]` and
an empty dict are falsy, everything else truthy. -/
def truthy : JValue → Bool
  | .null => false
  | .bool b => b
  | .int n => n ≠ 0
  | .num q => q.num ≠ 0
  | .str s => s ≠ ""
  | .arr xs => !xs.isEmpty
  | .obj kvs => !kvs.isEmpty

/-- Association-list lookup for object fields (JSON objects have distinct keys). -/
def lookupKey : List (String × JValue) → String → Option JValue
  | [], _ => none
  | (k, v) :: kvs, key => if k = key then some v else lookupKey kvs key

/-- Python `d.get(key, dflt)` on a value already known to be a dict.
(All call sites below guard the non-dict case, where `.get` would raise.) -/
def dictGetD (d : JValue) (key : String) (dflt : JValue) : JValue :=
  match d with
  | .obj kvs => (lookupKey kvs key).getD dflt
  | _ => dflt

/-- Python `d[key]` / `d.get(key)` with no default: `some` iff `d` is a dict
containing `key`; `none` both for a missing key and for a non-dict receiver
(where subscripting/`.get` raises `KeyError`/`TypeError`/`AttributeError`). -/
def dictGet (d : JValue) (key : String) : Option JValue :=
  match d with
  | .obj kvs => lookupKey kvs key
  | _ => none

mutual

/-- Python `str(v)`.  Scalars match CPython exactly; for containers the
rendering is a close approximation (element quoting/float repr differ), which
no theorem below depends on — the sources only apply `str` to scalar fields. -/
def pyStr : JValue → String
  | .null => "None"
  | .bool b => if b then "True" else "False"
  | .int n => toString n
  | .num q => toString q.num ++ "/" ++ toString q.den
  | .str s => s
  | .arr xs => "[" ++ String.intercalate ", " (pyStrList xs) ++ "]"
  | .obj kvs => "\x7b" ++ String.intercalate ", " (pyObjList kvs) ++ "\x7d"

def pyStrList : List JValue → List String
  | [] => []
  | v :: vs => pyStr v :: pyStrList vs

def pyObjList : List (String × JValue) → List String
  | [] => []
  | (k, v) :: kvs => (k ++ ": " ++ pyStr v) :: pyObjList kvs

end

/-- The characters stripped by Python's default `str.strip()` (ASCII part). -/
def isPySpace (c : Char) : Bool :=
  c = ' ' || c = '\t' || c = '\n' || c = '\r' || c = '\x0b' || c = '\x0c'

/-- Python `str.strip()` on a character list: drop leading and trailing
whitespace. -/
def pyStripL (cs : List Char) : List Char :=
  ((cs.dropWhile isPySpace).reverse.dropWhile isPySpace).reverse

/-- Python `s.strip()`. -/
def pyStrip (s : String) : String := String.mk (pyStripL s.data)

/-- Numeric coercion used by arithmetic contexts (`+`, `/`, `fromtimestamp`):
Python treats `bool` as an int; strings/containers raise (`none`). -/
def numOf : JValue → Option Frac
  | .bool b => some (.ofInt (if b then 1 else 0))
  | .int n => some (.ofInt n)
  | .num q => some q
  | _ => none

/-- Digit-run parser for `int(str)`: digits with single underscores allowed
between digits (CPython's literal rule). -/
def parseDigitsGo : List Char → Nat → Option Nat
  | [], acc => some acc
  | c :: cs, acc =>
    if c.isDigit then parseDigitsGo cs (acc * 10 + (c.toNat - 48))
    else if c = '_' then
      match cs with
      | c2 :: cs2 =>
        if c2.isDigit then parseDigitsGo cs2 (acc * 10 + (c2.toNat - 48))
        else none
      | [] => none
    else none

/-- A non-empty digit run (underscore-separated), or `none`. -/
def parseIntDigits : List Char → Option Nat
  | [] => none
  | c :: cs => if c.isDigit then parseDigitsGo cs (c.toNat - 48) else none

/-- Python `int(s)` for a string: surrounding whitespace, optional sign,
then a digit run. `none` models the `ValueError`. -/
def pyIntOfStr (s : String) : Option Int :=
  match pyStripL s.data with
  | '+' :: rest => (parseIntDigits rest).map Int.ofNat
  | '-' :: rest => (parseIntDigits rest).map (fun n => -(n : Int))
  | rest => (parseIntDigits rest).map Int.ofNat

/-- Python `int(v)`: ints and bools convert, floats truncate toward zero,
strings parse; `None` and containers raise (`none`). -/
def pyIntOf : JValue → Option Int
  | .bool b => some (if b then 1 else 0)
  | .int n => some n
  | .num q => some q.trunc
  | .str s => pyIntOfStr s
  | _ => none

/-- Round to the nearest integer, ties to even — the rounding of Python's
fixed-point float formatting, transported to exact fractions (denominator
positive): the remainder `q - ⌊q⌋ = rem/den` is compared against `1/2`. -/
def roundHalfEven (q : Frac) : Int :=
  let f := q.floor
  let rem := q.num - f * q.den
  if 2 * rem < q.den then f
  else if q.den < 2 * rem then f + 1
  else if f % 2 = 0 then f else f + 1

/-- Left-pad a digit list with zeros to at least `n` characters. -/
def padZeros (ds : List Char) (n : Nat) : List Char :=
  if n ≤ ds.length then ds else List.replicate (n - ds.length) '0' ++ ds

/-- Python `f"{q:.{d}f}"` over exact fractions: round `q * 10^d`
half-to-even and place the decimal point `d` digits from the right. -/
def pyFormatFixed (q : Frac) (d : Nat) : String :=
  let m := roundHalfEven (q * Frac.ofInt ((10 : Int) ^ d))
  let sign := if m < 0 ∨ (m = 0 ∧ q.num < 0) then "-" else ""
  if d = 0 then sign ++ toString m.natAbs
  else
    let ds := padZeros (toString m.natAbs).data (d + 1)
    sign ++ String.mk (ds.take (ds.length - d)) ++ "." ++
      String.mk (ds.drop (ds.length - d))

/-- Two-digit zero-padded numeral (`strftime` field). -/
def pad2 (n : Nat) : String := if n < 10 then "0" ++ toString n else toString n

/-- Civil date from days since the Unix epoch (proleptic Gregorian). -/
def civilFromDays (z : Int) : Int × Nat × Nat :=
  let z2 := z + 719468
  let era : Int := Int.fdiv z2 146097
  let doe : Nat := (z2 - era * 146097).toNat
  let yoe : Nat := (doe - doe / 1460 + doe / 36524 - doe / 146096) / 365
  let y : Int := (yoe : Int) + era * 400
  let doy : Nat := doe - (365 * yoe + yoe / 4 - yoe / 100)
  let mp : Nat := (5 * doy + 2) / 153
  let da : Nat := doy - (153 * mp + 2) / 5 + 1
  let mo : Nat := if mp < 10 then mp + 3 else mp - 9
  (if mo ≤ 2 then y + 1 else y, mo, da)

/-- Model of `datetime.fromtimestamp(secs).strftime("%Y-%m-%d %H:%M:%S")`.
`none` models the `ValueError`/`OverflowError` for dates outside
`datetime`'s supported years 1..9999.  (`fromtimestamp` uses the process
timezone; the deployment logs label these columns UTC, so the model takes
the timezone offset to be zero.) -/
def formatEpochSeconds (secs : Int) : Option String :=
  let days := Int.fdiv secs 86400
  let sod := (secs - days * 86400).toNat
  let c := civilFromDays days
  if 1 ≤ c.1 ∧ c.1 ≤ 9999 then
    some (String.mk (padZeros (toString c.1.toNat).data 4) ++ "-" ++ pad2 c.2.1 ++ "-" ++ pad2 c.2.2
      ++ " " ++ pad2 (sod / 3600) ++ ":" ++ pad2 (sod % 3600 / 60) ++ ":"
      ++ pad2 (sod % 60))
  else none

/-! ## `sheets_manager.py` — row preparation (`prepare_transaction_row`) -/

/-- Lines 113–118 of `sheets_manager.py`: the `time_utc` field.
`tx_data.get('timestamp')` is truthy → `fromtimestamp(timestamp / 1000)`
(raises on a non-numeric or out-of-range value); falsy → empty string. -/
def timeUTCField (tx_data : JValue) : Option String :=
  let timestamp := dictGetD tx_data "timestamp" .null
  if truthy timestamp then
    match numOf timestamp with
    | some q => formatEpochSeconds (q / Frac.ofInt 1000).floor
    | none => none
  else some ""

/-- Lines 130–134: the value of `trc20_transfers` after the fallback to
`tokenTransferInfo`.  Field A (`trc20TransferInfo`) is kept whenever truthy;
only when A is falsy and B truthy AND B is a single dict is B wrapped into a
one-element list.  (A truthy, list-shaped B leaves `trc20_transfers` falsy.) -/
def tokenResolve (tx_data : JValue) : JValue :=
  let a := dictGetD tx_data "trc20TransferInfo" (.arr [])
  if !truthy a && truthy (dictGetD tx_data "tokenTransferInfo" .null) then
    match dictGetD tx_data "tokenTransferInfo" .null with
    | .obj kvs => .arr [.obj kvs]
    | _ => a
  else a

/-- Python `len(v)`: `some` for sized values, `none` for the `TypeError`
on numbers/None/bools. -/
def pyLen : JValue → Option Nat
  | .str s => some s.length
  | .arr xs => some xs.length
  | .obj kvs => some kvs.length
  | _ => none

/-- Python `v[0]`: head of a list; first character of a string; `none` for
the exception on an empty list, a dict (its keys are strings, not `0`),
or an unsubscriptable value. -/
def pyIndex0 : JValue → Option JValue
  | .arr (x :: _) => some x
  | .str s =>
    match s.data with
    | c :: _ => some (.str (String.mk [c]))
    | [] => none
  | _ => none

/-- Lines 143–150: `amount_formatted` for a token transfer.  The inner
`try` scales `int(amount_str)` by `10^decimals` and formats with `decimals`
fractional digits; any failure (unparsable amount, non-int or negative
`decimals`, which makes the f-string precision invalid) falls back to the
raw `amount_str` value. -/
def amountFormatted (transfer : JValue) : String :=
  let amount_str := dictGetD transfer "amount_str" (.str "0")
  let decimals := dictGetD transfer "decimals" (.int 6)
  match pyIntOf amount_str, decimals with
  | some n, .int d =>
    if 0 ≤ d then
      pyFormatFixed (Frac.ofInt n / Frac.ofInt ((10 : Int) ^ d.toNat)) d.toNat
    else pyStr amount_str
  | _, _ => pyStr amount_str

/-- Lines 136–156: the token-dependent row fields
`(to_addr, token_contract, token_symbol, amount_formatted)`.
`none` models an exception escaping to the outer handler: `len()` of an
unsized truthy value, subscripting `[0]` failing, or `.get` on a non-dict
first element. -/
def tokenFields (tx_data : JValue) : Option (String × String × String × String) :=
  let t := tokenResolve tx_data
  if truthy t then
    match pyLen t with
    | none => none
    | some n =>
      if 0 < n then
        match pyIndex0 t with
        | none => none
        | some transfer =>
          match transfer with
          | .obj _ =>
            some (pyStr (dictGetD transfer "to_address" (.str "")),
                  pyStr (dictGetD transfer "contract_address" (.str "")),
                  pyStr (dictGetD transfer "symbol" (.str "")),
                  amountFormatted transfer)
          | _ => none
      else
        some (pyStr (dictGetD tx_data "toAddress" (.str "")), "", "TRX", "0.000000")
  else
    some (pyStr (dictGetD tx_data "toAddress" (.str "")), "", "TRX", "0.000000")

/-- Lines 159–164: `(total_cost_trx, total_cost_usd)`.  A dict cost object
sums `fee` and `energy_fee` (raising, hence `none`, when either is
non-numeric) and divides by 1 000 000; a non-dict cost yields `(0, 0)`. -/
def costPair (tx_data : JValue) (trx_price : Frac) : Option (Frac × Frac) :=
  let cost := dictGetD tx_data "cost" (.obj [])
  match cost with
  | .obj _ =>
    match numOf (dictGetD cost "fee" (.int 0)),
          numOf (dictGetD cost "energy_fee" (.int 0)) with
    | some f, some e =>
      some ((f + e) / Frac.ofInt 1000000,
            (f + e) / Frac.ofInt 1000000 * trx_price)
    | _, _ => none
  | _ => some (Frac.ofInt 0, Frac.ofInt 0)

/-- Lines 106–190 of `sheets_manager.py`: `prepare_transaction_row`.
Returns the 15-cell row (cells modelled by their text content, as stored in
the sheet), or `none` for the `except` branch that returns `None`.
`logged_at` stands for the `datetime.now()` string read at line 167. -/
def prepare_transaction_row (tx_data : JValue) (tx_hash user_id : String)
    (trx_price : Frac) (logged_at : String) : Option (List String) :=
  match tx_data with
  | .obj _ => do
    let block := pyStr (dictGetD tx_data "block" (.str ""))
    let time_utc ← timeUTCField tx_data
    let from_addr := pyStr (dictGetD tx_data "ownerAddress" (.str ""))
    let contract_ret := pyStr (dictGetD tx_data "contractRet" (.str ""))
    let confirmed := truthy (dictGetD tx_data "confirmed" (.bool true))
    let status := if confirmed then "CONFIRMED" else "PENDING"
    let confirmations := pyStr (dictGetD tx_data "confirmations" (.int 0))
    let tf ← tokenFields tx_data
    let c ← costPair tx_data trx_price
    pure [tx_hash, block, time_utc, from_addr, tf.1, tf.2.1, tf.2.2.1,
          tf.2.2.2, contract_ret, status, confirmations,
          pyFormatFixed c.1 6, pyFormatFixed c.2 4, user_id, logged_at]
  | _ => none

/-! ## `sheets_manager.py` — the store and the idempotent append protocol -/

/-- The `SheetsManager` state: the connection flag and the worksheet grid
(each row a list of cell texts). -/
structure SheetsManager where
  is_connected : Bool
  rows : List (List String)

/-- Model of `worksheet.col_values(1)`: the first-column cell of every row. -/
def col_values1 (m : SheetsManager) : List String :=
  m.rows.map (fun r => r.headD "")

/-- Lines 93–104: `check_duplicate`.  `readFails` stands for the backing
read raising; the handler prints and returns `False` — the check fails open.
Otherwise membership of `tx_hash` in the hash column (exact string
equality, `tx_hash in hash_column`). -/
def check_duplicate (m : SheetsManager) (readFails : Bool) (tx_hash : String) : Bool :=
  if !m.is_connected then false
  else if readFails then false
  else decide (tx_hash ∈ col_values1 m)

/-- The environment faults `log_transaction` can encounter: the duplicate
check's column read raising, and `append_row` raising (with the exception
text). -/
structure LogFaults where
  dupReadFails : Bool
  appendFail : Option String

/-- A fault-free environment. -/
def noFaults : LogFaults := ⟨false, none⟩

/-- Python `str(e)[:100]` truncation used in error messages. -/
def pyTrunc100 (s : String) : String := String.mk (s.data.take 100)

/-- Lines 192–214: `log_transaction`.  Returns the new store state and the
`(success, message)` pair of the Python function. -/
def log_transaction (m : SheetsManager) (flt : LogFaults) (tx_data : JValue)
    (tx_hash user_id : String) (trx_price : Frac) (logged_at : String) :
    SheetsManager × Bool × String :=
  if !m.is_connected then (m, false, "Not connected to Google Sheets")
  else if check_duplicate m flt.dupReadFails tx_hash then
    (m, false, "Transaction already logged (duplicate hash)")
  else
    match prepare_transaction_row tx_data tx_hash user_id trx_price logged_at with
    | none => (m, false, "Failed to prepare transaction data")
    | some row =>
      if row.isEmpty then (m, false, "Failed to prepare transaction data")
      else
        match flt.appendFail with
        | some e => (m, false, "Error saving to sheets: " ++ pyTrunc100 e)
        | none =>
          ({ m with rows := m.rows ++ [row] }, true,
            "Transaction successfully logged to Google Sheets")

/-! ## `phase3_main_bot_fixed.py` — hash validation and command parsing -/

/-- The character class `[a-fA-F0-9]` of `HASH_PATTERN`. -/
def isHexChar (c : Char) : Bool :=
  c.isDigit || ('a' ≤ c && c ≤ 'f') || ('A' ≤ c && c ≤ 'F')

/-- Anchored match of `^[a-fA-F0-9]{64}$` against a character list: exactly
64 hex characters and then the end of the string (or, as `$` allows, a
single final newline). -/
def matchHashPattern : Nat → List Char → Bool
  | 0, cs => cs.isEmpty || cs = ['\n']
  | n + 1, c :: cs => isHexChar c && matchHashPattern n cs
  | _ + 1, [] => false

/-- Lines 83–85 of `phase3_main_bot_fixed.py`: `validate_hash` —
`bool(HASH_PATTERN.match(hash_str.strip()))`. -/
def validate_hash (hash_str : String) : Bool :=
  matchHashPattern 64 (pyStripL hash_str.data)

/-- The command keywords recognized by `parse_command`. -/
inductive Cmd where
  | get : Cmd
  | log : Cmd
  | help : Cmd
deriving Repr, DecidableEq

/-- One-position attempt of the search for a quoted hash: a quote, 64 hex
characters, a closing quote; returns group 1. -/
def quotedHexAt : List Char → Option (List Char)
  | '"' :: rest =>
    let h := rest.take 64
    if h.length == 64 && h.all isHexChar && (rest.drop 64).head? == some '"' then
      some h
    else none
  | _ => none

/-- Model of the regex search for the quoted-hash pattern of line 116: the
leftmost position where
`quotedHexAt` matches. -/
def searchQuotedHex : List Char → Option (List Char)
  | [] => none
  | c :: rest =>
    match quotedHexAt (c :: rest) with
    | some h => some h
    | none => searchQuotedHex rest

/-- Worker for `pySplitWs`: `acc` holds the (reversed) current word. -/
def pySplitGo : List Char → List Char → List (List Char)
  | [], acc => if acc.isEmpty then [] else [acc.reverse]
  | c :: cs, acc =>
    if isPySpace c then
      if acc.isEmpty then pySplitGo cs []
      else acc.reverse :: pySplitGo cs []
    else pySplitGo cs (c :: acc)

/-- Python `s.split()`: split on runs of whitespace, dropping empties. -/
def pySplitWs (cs : List Char) : List (List Char) := pySplitGo cs []

/-- Lines 115–127: hash extraction for `!get`/`!log` — first a quoted
64-hex run, else the first whitespace-delimited token accepted by
`validate_hash`. -/
def extractHash (command : Cmd) (rest : List Char) : Option Cmd × Option (List Char) :=
  match searchQuotedHex rest with
  | some h => (some command, some h)
  | none =>
    match pySplitWs rest with
    | [] => (some command, none)
    | p :: _ =>
      if validate_hash (String.mk p) then (some command, some p)
      else (some command, none)

/-- Lines 102–127 of `phase3_main_bot_fixed.py`: the body of
`parse_command` after the mention has been stripped (`clean_message`) —
the `!get` / `!log` / `!help` prefix chain, with `!help` taking no hash. -/
def parse_clean (clean : List Char) : Option Cmd × Option (List Char) :=
  if ['!', 'g', 'e', 't'].isPrefixOf clean then
    extractHash .get (pyStripL (clean.drop 4))
  else if ['!', 'l', 'o', 'g'].isPrefixOf clean then
    extractHash .log (pyStripL (clean.drop 4))
  else if ['!', 'h', 'e', 'l', 'p'].isPrefixOf clean then
    (some .help, none)
  else (none, none)

/-- Lines 97–127: `parse_command` — strip the bot mention token, trim, and
parse the remaining text. -/
def parse_command (bot_user_id message_text : String) : Option Cmd × Option (List Char) :=
  parse_clean (pyStripL ((message_text.replace ("<@" ++ bot_user_id ++ ">") "").data))

/-! ## `phase3_main_bot_fixed.py` — fetch classification and price oracle -/

/-- The outcome of the one HTTP request a fetch performs: a timeout, some
other transport exception (with its text), or a response with a status code
and a body (`none` when `response.json()` raises). -/
inductive HttpOutcome where
  | timeout : HttpOutcome
  | exn : String → HttpOutcome
  | resp : Nat → Option JValue → HttpOutcome

/-- The classification returned by `fetch_transaction_data`, one constructor
per `return` in lines 129–156: `ok data` is `(True, data)`; the others are
`(False, msg)` with messages "Transaction not found on TRON blockchain",
"API error: {status}", "Request timeout - please try again" and
"Network error: {str(e)[:100]}" respectively. -/
inductive FetchResult where
  | ok : JValue → FetchResult
  | notFound : FetchResult
  | apiError : Nat → FetchResult
  | timeout : FetchResult
  | networkError : String → FetchResult
deriving Repr

/-- Lines 129–156 of `phase3_main_bot_fixed.py`: `fetch_transaction_data`.
On HTTP 200 the body must decode to a dict (otherwise `.get` or `.json()`
raises inside the `try`, landing in the `except Exception` branch) and one
of `contractRet` / `contract_map` / `contractInfo` must be truthy;
otherwise "not found".  Non-200 is an API error carrying the status. -/
def fetch_transaction_data (o : HttpOutcome) (decodeErr getErr : String) : FetchResult :=
  match o with
  | .timeout => .timeout
  | .exn e => .networkError (pyTrunc100 e)
  | .resp status body =>
    if status = 200 then
      match body with
      | none => .networkError (pyTrunc100 decodeErr)
      | some data =>
        match data with
        | .obj _ =>
          if truthy (dictGetD data "contractRet" .null)
              || truthy (dictGetD data "contract_map" .null)
              || truthy (dictGetD data "contractInfo" .null) then
            .ok data
          else .notFound
        | _ => .networkError (pyTrunc100 getErr)
    else .apiError status

/-- Lines 87–95 of `phase3_main_bot_fixed.py`: `get_trx_price`.  Inside the
`try`: on HTTP 200 return `response.json()['tron']['usd']`; any exception
(timeout, decode error, missing key, non-dict) is swallowed and, like the
non-200 case, falls through to the fallback `0.07`. -/
def get_trx_price (o : HttpOutcome) : JValue :=
  match o with
  | .resp status body =>
    if status = 200 then
      match body with
      | none => .num ⟨7, 100⟩
      | some data =>
        match dictGet data "tron" with
        | none => .num ⟨7, 100⟩
        | some tron =>
          match dictGet tron "usd" with
          | none => .num ⟨7, 100⟩
          | some usd => usd
    else .num ⟨7, 100⟩
  | _ => .num ⟨7, 100⟩

/-! ## `phase3_main_bot.py` — token resolution in `format_basic_status` -/

/-- Lines 200–209 of `phase3_main_bot.py`: the value of `trc20_transfers`
in `format_basic_status`.  Unlike `prepare_transaction_row`, this version
also accepts a list-shaped `tokenTransferInfo` (`elif isinstance(transfer,
list): trc20_transfers = transfer`). -/
def tokenResolveBasic (tx_data : JValue) : JValue :=
  let a := dictGetD tx_data "trc20TransferInfo" (.arr [])
  if !truthy a then
    if truthy (dictGetD tx_data "tokenTransferInfo" .null) then
      match dictGetD tx_data "tokenTransferInfo" .null with
      | .obj kvs => .arr [.obj kvs]
      | .arr xs => .arr xs
      | _ => a
    else a
  else a

/-! ## Theorems -/

/-- The sample transaction hash used throughout the repository
(`phase3_main_bot_fixed.py` lines 308, 533 and elsewhere). -/
def sampleHash : String :=
  "3bb06f21d607e8c19b0638c6f9ecd3986c377d47116f737ab1964d324223bef9"

lemma head_of_dropWhile_false {p : Char → Bool} {l : List Char} {c : Char}
    (h : (l.dropWhile p).head? = some c) : p c = false := by
  induction l with
  | nil => simp [List.dropWhile] at h
  | cons a l ih =>
    rw [List.dropWhile_cons] at h
    by_cases hp : p a = true
    · rw [if_pos hp] at h
      exact ih h
    · rw [if_neg hp] at h
      simp at h
      subst h
      exact Bool.not_eq_true _ |>.mp hp

lemma pyStripL_getLast?_ne_space {cs : List Char} {c : Char}
    (h : (pyStripL cs).getLast? = some c) : isPySpace c = false := by
  unfold pyStripL at h
  rw [List.getLast?_reverse] at h
  exact head_of_dropWhile_false h

lemma matchHashPattern_iff_of_no_newline (n : Nat) (cs : List Char)
    (h : cs.getLast? ≠ some '\n') :
    (matchHashPattern n cs = true ↔
      (cs.length = n ∧ ∀ c ∈ cs, isHexChar c = true)) := by
  induction n generalizing cs with
  | zero =>
    cases cs with
    | nil => simp [matchHashPattern]
    | cons a t =>
      have hne : (a :: t) ≠ ['\n'] := fun he => h (by rw [he]; rfl)
      simp [matchHashPattern, hne]
  | succ n ih =>
    cases cs with
    | nil => simp [matchHashPattern]
    | cons a t =>
      have ht : t.getLast? ≠ some '\n' := by
        intro hl
        apply h
        cases t with
        | nil => simp at hl
        | cons b u => rw [List.getLast?_cons_cons]; exact hl
      rw [show matchHashPattern (n + 1) (a :: t) =
            (isHexChar a && matchHashPattern n t) from rfl]
      simp only [Bool.and_eq_true, ih t ht, List.length_cons, List.mem_cons]
      constructor
      · rintro ⟨h1, h2, h3⟩
        exact ⟨by omega, fun c hc => by rcases hc with rfl | hc; exact h1; exact h3 c hc⟩
      · rintro ⟨h1, h2⟩
        exact ⟨h2 a (Or.inl rfl), by omega, fun c hc => h2 c (Or.inr hc)⟩

/-- C7 (counterexample): the claim asserts the corpus sample hash is a
65-character string that `isValidHash` rejects; in fact the sample hash has
exactly 64 characters and `validate_hash` accepts it. -/
theorem sampleHash_is_64_chars_and_valid :
    validate_hash sampleHash = true ∧ sampleHash.length = 64 := by
  constructor
  · decide
  · decide

/-- C7 (amended): `validate_hash s` is true iff, after stripping
surrounding whitespace, `s` has length exactly 64 and every character is a
hexadecimal digit; consequently every trimmed string of a length other
than 64 is rejected and every 64-hex string in any letter case is
accepted.  (Amendment: the corpus sample hash is itself a 64-character hex
string and is accepted, contrary to the claim's 65-character aside.) -/
theorem validate_hash_iff_trimmed_64_hex :
    (∀ s : String, validate_hash s = true ↔
      ((pyStripL s.data).length = 64 ∧ ∀ c ∈ pyStripL s.data, isHexChar c = true))
    ∧ validate_hash sampleHash = true ∧ sampleHash.length = 64 := by
  refine ⟨fun s => ?_, by decide, by decide⟩
  unfold validate_hash
  apply matchHashPattern_iff_of_no_newline
  intro hl
  have := pyStripL_getLast?_ne_space hl
  simp [isPySpace] at this

/-- C7 witness: the characterization applied at a concrete input — an
upper-case 64-character hex string (16 hex characters repeated four
times) is accepted. -/
theorem validate_hash_iff_witness :
    validate_hash
      "ABCDEF0123456789ABCDEF0123456789ABCDEF0123456789ABCDEF0123456789" =
      true :=
  (validate_hash_iff_trimmed_64_hex.1
    "ABCDEF0123456789ABCDEF0123456789ABCDEF0123456789ABCDEF0123456789").mpr
    (by decide)

lemma dropWhile_eq_self_of_head {p : Char → Bool} {l : List Char}
    (h : ∀ c, l.head? = some c → p c = false) : l.dropWhile p = l := by
  cases l with
  | nil => rfl
  | cons a t => exact List.dropWhile_cons_of_neg (by simp [h a rfl])

lemma pyStripL_eq_self {cs : List Char}
    (h1 : ∀ c, cs.head? = some c → isPySpace c = false)
    (h2 : ∀ c, cs.getLast? = some c → isPySpace c = false) : pyStripL cs = cs := by
  unfold pyStripL
  rw [dropWhile_eq_self_of_head h1]
  rw [dropWhile_eq_self_of_head
    (by intro c hc; rw [List.head?_reverse] at hc; exact h2 c hc)]
  exact List.reverse_reverse cs

lemma pyStripL_cons_space {c : Char} (hc : isPySpace c = true) (l : List Char) :
    pyStripL (c :: l) = pyStripL l := by
  unfold pyStripL
  rw [List.dropWhile_cons_of_pos hc]

lemma quotedHexAt_exact {H : List Char} (hlen : H.length = 64)
    (hhex : ∀ c ∈ H, isHexChar c = true) :
    quotedHexAt ('"' :: (H ++ ['"'])) = some H := by
  unfold quotedHexAt
  have ht : (H ++ ['"']).take 64 = H := by rw [← hlen]; exact List.take_left H _
  have hd : (H ++ ['"']).drop 64 = ['"'] := by rw [← hlen]; exact List.drop_left H _
  simp only [ht, hd]
  have hcond : (H.length == 64 && H.all isHexChar
      && (List.head? ['"'] == some '"')) = true := by
    simp [hlen, List.all_eq_true]
    exact hhex
  simp [hcond]
  exact ⟨hlen, hhex⟩

/-- C8: after mention stripping, the parser (i) on input matching
`!get "H"` for a 64-hex `H` yields the GET command with that hash, (ii) on
`!get` alone yields the GET command with no hash (distinct from
unrecognized input), and (iii) on any text starting with none of the
command keywords yields no command and no hash. -/
theorem parse_command_classification :
    (∀ H : List Char, H.length = 64 → (∀ c ∈ H, isHexChar c = true) →
      parse_clean ('!' :: 'g' :: 'e' :: 't' :: ' ' :: '"' :: (H ++ ['"'])) =
        (some .get, some H))
    ∧ parse_clean "!get".data = (some .get, none)
    ∧ (∀ cs : List Char,
        ['!', 'g', 'e', 't'].isPrefixOf cs = false →
        ['!', 'l', 'o', 'g'].isPrefixOf cs = false →
        ['!', 'h', 'e', 'l', 'p'].isPrefixOf cs = false →
        parse_clean cs = (none, none)) := by
  refine ⟨fun H hlen hhex => ?_, by decide, fun cs h1 h2 h3 => ?_⟩
  · have hpre : (['!', 'g', 'e', 't'].isPrefixOf
        ('!' :: 'g' :: 'e' :: 't' :: ' ' :: '"' :: (H ++ ['"']))) = true := by
      simp [List.isPrefixOf]
    unfold parse_clean
    rw [hpre]
    simp only [if_true]
    have hdrop : ('!' :: 'g' :: 'e' :: 't' :: ' ' :: '"' :: (H ++ ['"'])).drop 4
        = ' ' :: '"' :: (H ++ ['"']) := rfl
    rw [hdrop]
    rw [pyStripL_cons_space (by decide)]
    rw [pyStripL_eq_self (by intro c hc; simp at hc; subst hc; decide)
      (by
        intro c hc
        rw [show ('"' :: (H ++ ['"'])) = (('"' :: H) ++ ['"']) from rfl] at hc
        rw [List.getLast?_concat] at hc
        simp at hc
        subst hc
        decide)]
    unfold extractHash
    rw [show searchQuotedHex ('"' :: (H ++ ['"'])) =
        match quotedHexAt ('"' :: (H ++ ['"'])) with
        | some h => some h
        | none => searchQuotedHex (H ++ ['"']) from rfl]
    rw [quotedHexAt_exact hlen hhex]
  · unfold parse_clean
    rw [h1, h2, h3]
    rfl

/-- C8 witness: the parser cases at concrete inputs — the corpus sample
hash quoted after `!get`, and an unrelated message. -/
theorem parse_command_classification_witness :
    parse_clean ('!' :: 'g' :: 'e' :: 't' :: ' ' :: '"' :: (sampleHash.data ++ ['"'])) =
      (some .get, some sampleHash.data)
    ∧ parse_clean "hello there".data = (none, none) :=
  ⟨parse_command_classification.1 sampleHash.data (by decide) (by decide),
   parse_command_classification.2.2 "hello there".data (by decide) (by decide)
     (by decide)⟩

/-- C9: `get_trx_price` never propagates a failure — a timeout, any other
exception, a non-200 status, an undecodable body, or a payload missing the
`tron`/`usd` fields all return exactly the fallback `0.07` (= `7/100`);
the fetched value is returned only on HTTP 200 with the expected
`{"tron": {"usd": ...}}` shape. -/
theorem get_trx_price_fallback_behavior :
    get_trx_price .timeout = .num ⟨7, 100⟩
    ∧ (∀ e, get_trx_price (.exn e) = .num ⟨7, 100⟩)
    ∧ (∀ st body, st ≠ 200 → get_trx_price (.resp st body) = .num ⟨7, 100⟩)
    ∧ get_trx_price (.resp 200 none) = .num ⟨7, 100⟩
    ∧ (∀ body, dictGet body "tron" = none →
        get_trx_price (.resp 200 (some body)) = .num ⟨7, 100⟩)
    ∧ (∀ body tron, dictGet body "tron" = some tron → dictGet tron "usd" = none →
        get_trx_price (.resp 200 (some body)) = .num ⟨7, 100⟩)
    ∧ (∀ body tron usd, dictGet body "tron" = some tron →
        dictGet tron "usd" = some usd →
        get_trx_price (.resp 200 (some body)) = usd) := by
  refine ⟨rfl, fun e => rfl, fun st body hst => ?_, rfl,
    fun body h => ?_, fun body tron h1 h2 => ?_, fun body tron usd h1 h2 => ?_⟩
  · simp [get_trx_price, hst]
  · simp [get_trx_price, h]
  · simp [get_trx_price, h1, h2]
  · simp [get_trx_price, h1, h2]

/-- C9 witness: the non-200 and malformed-payload conjuncts at concrete
inputs. -/
theorem get_trx_price_fallback_witness :
    get_trx_price (.resp 500 (some (.obj []))) = .num ⟨7, 100⟩
    ∧ get_trx_price (.resp 200 (some (.obj []))) = .num ⟨7, 100⟩
    ∧ get_trx_price
        (.resp 200 (some (.obj [("tron", .obj [("usd", .num ⟨123, 1000⟩)])]))) =
        .num ⟨123, 1000⟩ :=
  ⟨get_trx_price_fallback_behavior.2.2.1 500 (some (.obj [])) (by decide),
   get_trx_price_fallback_behavior.2.2.2.2.1 (.obj []) rfl,
   get_trx_price_fallback_behavior.2.2.2.2.2.2 (.obj [("tron", .obj [("usd", .num ⟨123, 1000⟩)])])
     (.obj [("usd", .num ⟨123, 1000⟩)]) (.num ⟨123, 1000⟩) rfl rfl⟩

/-- C4 (counterexample): the claim classifies HTTP 200 whose payload
*contains* one of the three presence fields as success; but a payload
containing `contractRet` with an empty (falsy) value is classified
not-found by the code, because line 145 tests truthiness, not presence. -/
theorem fetch_present_but_falsy_field_is_notFound :
    fetch_transaction_data (.resp 200 (some (.obj [("contractRet", .str "")])))
        "jsonerr" "geterr" = .notFound
    ∧ dictGet (.obj [("contractRet", .str "")]) "contractRet" = some (.str "") := by
  exact ⟨rfl, rfl⟩

/-- C4 (amended): `fetch_transaction_data` classifies success iff the HTTP
status is 200 and the payload decodes to a JSON object in which at least
one of `contractRet` / `contract_map` / `contractInfo` has a truthy value
(present-but-falsy does not count); HTTP 200 with an object payload and
no truthy presence field (e.g. the empty object) is not-found; HTTP 200
with an undecodable or non-object payload is a network error; HTTP
non-200 is an API error carrying the status; a timeout is a timeout; any
other exception is a network error with the message truncated to 100
characters. -/
theorem fetch_classification :
    (∀ kvs d g, fetch_transaction_data (.resp 200 (some (.obj kvs))) d g =
      (if (truthy (dictGetD (.obj kvs) "contractRet" .null)
          || truthy (dictGetD (.obj kvs) "contract_map" .null)
          || truthy (dictGetD (.obj kvs) "contractInfo" .null)) then
        .ok (.obj kvs)
      else .notFound))
    ∧ (∀ d g, fetch_transaction_data (.resp 200 (some (.obj []))) d g = .notFound)
    ∧ (∀ st body d g, st ≠ 200 →
        fetch_transaction_data (.resp st body) d g = .apiError st)
    ∧ (∀ d g, fetch_transaction_data .timeout d g = .timeout)
    ∧ (∀ e d g, fetch_transaction_data (.exn e) d g =
        .networkError (pyTrunc100 e))
    ∧ (∀ d g, fetch_transaction_data (.resp 200 none) d g =
        .networkError (pyTrunc100 d))
    ∧ (∀ xs d g, fetch_transaction_data (.resp 200 (some (.arr xs))) d g =
        .networkError (pyTrunc100 g)) := by
  refine ⟨fun kvs d g => rfl, fun d g => rfl, fun st body d g hst => ?_,
    fun d g => rfl, fun e d g => rfl, fun d g => rfl, fun xs d g => rfl⟩
  simp [fetch_transaction_data, hst]

/-- C4 witness: the classification at concrete inputs — a truthy
`contractRet` succeeds, a 404 is an API error. -/
theorem fetch_classification_witness :
    fetch_transaction_data
        (.resp 200 (some (.obj [("contractRet", .str "SUCCESS")]))) "d" "g" =
      .ok (.obj [("contractRet", .str "SUCCESS")])
    ∧ fetch_transaction_data (.resp 404 none) "d" "g" = .apiError 404 :=
  ⟨by
    have h := fetch_classification.1 [("contractRet", .str "SUCCESS")] "d" "g"
    simpa using h,
   fetch_classification.2.2.1 404 none "d" "g" (by decide)⟩

lemma padZeros_length_ge (ds : List Char) (n : Nat) : n ≤ (padZeros ds n).length := by
  unfold padZeros
  split
  · omega
  · simp
    omega

lemma pyFormatFixed_decimal_shape (q : Frac) (d : Nat) (hd : 0 < d) :
    ∃ pre post : String, pyFormatFixed q d = pre ++ "." ++ post
      ∧ post.length = d := by
  unfold pyFormatFixed
  rw [if_neg (by omega : ¬ d = 0)]
  refine ⟨_, _, rfl, ?_⟩
  have hge := padZeros_length_ge
    (toString (roundHalfEven (q * Frac.ofInt ((10 : Int) ^ d))).natAbs).data (d + 1)
  show (List.drop _ _).length = d
  rw [List.length_drop]
  omega

/-- C6: for a token transfer whose `amount_str` is a string parsing as an
integer `n` and whose `decimals` resolves to a nonnegative integer `d`
(defaulting to 6 when the field is absent), the formatted amount is
`n / 10^d` rendered with exactly `d` fractional digits; when `amount_str`
does not parse as an integer the raw string is returned unscaled, and the
computation never fails (it is total). -/
theorem amount_scaling_and_fallback :
    (∀ (t : JValue) (s : String) (n : Int) (d : Int),
      dictGetD t "amount_str" (.str "0") = .str s →
      pyIntOfStr s = some n →
      dictGetD t "decimals" (.int 6) = .int d →
      0 ≤ d →
      amountFormatted t =
        pyFormatFixed (Frac.ofInt n / Frac.ofInt ((10 : Int) ^ d.toNat)) d.toNat
      ∧ (0 < d → ∃ pre post : String,
          amountFormatted t = pre ++ "." ++ post ∧ post.length = d.toNat))
    ∧ (∀ (t : JValue) (s : String),
        dictGetD t "amount_str" (.str "0") = .str s →
        pyIntOfStr s = none →
        amountFormatted t = s)
    ∧ amountFormatted (.obj [("amount_str", .str "1000000"), ("decimals", .int 6)])
        = "1.000000" := by
  refine ⟨fun t s n d hs hn hd hd0 => ?_, fun t s hs hn => ?_, by decide⟩
  · have heq : amountFormatted t =
        pyFormatFixed (Frac.ofInt n / Frac.ofInt ((10 : Int) ^ d.toNat)) d.toNat := by
      unfold amountFormatted
      rw [hs, hd]
      show (match pyIntOf (.str s), JValue.int d with
        | some n, .int d => if 0 ≤ d then
            pyFormatFixed (Frac.ofInt n / Frac.ofInt ((10 : Int) ^ d.toNat)) d.toNat
          else pyStr (.str s)
        | _, _ => pyStr (.str s)) = _
      rw [show pyIntOf (.str s) = pyIntOfStr s from rfl, hn]
      simp [hd0]
    refine ⟨heq, fun hdpos => ?_⟩
    rw [heq]
    exact pyFormatFixed_decimal_shape _ d.toNat (by omega)
  · unfold amountFormatted
    rw [hs]
    cases hdec : dictGetD t "decimals" (.int 6) <;>
      simp [show pyIntOf (.str s) = pyIntOfStr s from rfl, hn, pyStr]

/-- C6 witness: `amount_str = "1000000"` with `decimals` absent (default 6)
formats as `n / 10^6` with six fractional digits, and a non-numeric
`amount_str` falls back to the raw string. -/
theorem amount_scaling_witness :
    (amountFormatted (.obj [("amount_str", .str "1000000")]) =
        pyFormatFixed (Frac.ofInt 1000000 / Frac.ofInt ((10 : Int) ^ (6 : Int).toNat))
          (6 : Int).toNat
      ∧ ((0 : Int) < 6 → ∃ pre post : String,
          amountFormatted (.obj [("amount_str", .str "1000000")]) =
            pre ++ "." ++ post ∧ post.length = (6 : Int).toNat))
    ∧ amountFormatted (.obj [("amount_str", .str "notanumber")]) = "notanumber" :=
  ⟨amount_scaling_and_fallback.1 (.obj [("amount_str", .str "1000000")])
      "1000000" 1000000 6 rfl (by decide) rfl (by decide),
   amount_scaling_and_fallback.2.1 (.obj [("amount_str", .str "notanumber")])
      "notanumber" rfl (by decide)⟩

/-- A raw record whose only token-transfer data is a *list-shaped*
`tokenTransferInfo` (field B), with field A absent. -/
def listShapedBRecord : JValue :=
  .obj [("tokenTransferInfo", .arr [.obj [("to_address", .str "TTokenRecipient"),
    ("contract_address", .str "TContract"), ("symbol", .str "USDT"),
    ("amount_str", .str "5000000"), ("decimals", .int 6)]])]

/-- C5 (counterexample): with field A absent and field B arriving as a
list, `prepare_transaction_row` does NOT use field B — the row falls back
to the native-coin defaults (`TRX`, amount `0.000000`, empty addresses) —
because lines 131–134 only wrap a single-dict B.  The same record's B
*is* accepted by `format_basic_status` in `phase3_main_bot.py`. -/
theorem list_shaped_B_ignored_by_normalizer :
    prepare_transaction_row listShapedBRecord "h" "u" ⟨7, 100⟩ "t" =
      some ["h", "", "", "", "", "", "TRX", "0.000000", "", "CONFIRMED", "0",
        "0.000000", "0.0000", "u", "t"]
    ∧ tokenResolve listShapedBRecord = .arr []
    ∧ tokenResolveBasic listShapedBRecord =
        .arr [.obj [("to_address", .str "TTokenRecipient"),
          ("contract_address", .str "TContract"), ("symbol", .str "USDT"),
          ("amount_str", .str "5000000"), ("decimals", .int 6)]] :=
  ⟨rfl, rfl, rfl⟩

/-- C5 (amended): token-transfer resolution — (i) a truthy field A
(`trc20TransferInfo`) always takes precedence and field B is ignored even
when present; (ii) with A empty/absent, a truthy single-object B
(`tokenTransferInfo`) is wrapped into a one-element list; (iii) with A
empty/absent and B list-shaped, `prepare_transaction_row` ignores B and
applies the native-coin defaults (only `format_basic_status` of
`phase3_main_bot.py` accepts the list shape); (iv) with both empty, the
native-coin defaults apply. -/
theorem token_transfer_resolution :
    (∀ d : JValue, truthy (dictGetD d "trc20TransferInfo" (.arr [])) = true →
      tokenResolve d = dictGetD d "trc20TransferInfo" (.arr []))
    ∧ (∀ (d : JValue) (kvs : List (String × JValue)),
        truthy (dictGetD d "trc20TransferInfo" (.arr [])) = false →
        dictGetD d "tokenTransferInfo" .null = .obj kvs →
        truthy (.obj kvs) = true →
        tokenResolve d = .arr [.obj kvs])
    ∧ (∀ (d : JValue) (xs : List JValue),
        truthy (dictGetD d "trc20TransferInfo" (.arr [])) = false →
        dictGetD d "tokenTransferInfo" .null = .arr xs →
        tokenResolve d = dictGetD d "trc20TransferInfo" (.arr [])
        ∧ tokenFields d =
            some (pyStr (dictGetD d "toAddress" (.str "")), "", "TRX", "0.000000")
        ∧ (truthy (.arr xs) = true → tokenResolveBasic d = .arr xs))
    ∧ (∀ d : JValue,
        truthy (dictGetD d "trc20TransferInfo" (.arr [])) = false →
        truthy (dictGetD d "tokenTransferInfo" .null) = false →
        tokenFields d =
          some (pyStr (dictGetD d "toAddress" (.str "")), "", "TRX", "0.000000")) := by
  refine ⟨fun d ha => ?_, fun d kvs ha hb htb => ?_, fun d xs ha hb => ?_,
    fun d ha hb => ?_⟩
  · unfold tokenResolve
    simp [ha]
  · unfold tokenResolve
    simp [ha, hb, htb]
  · have hres : tokenResolve d = dictGetD d "trc20TransferInfo" (.arr []) := by
      unfold tokenResolve
      simp [ha, hb]
    refine ⟨hres, ?_, fun htr => ?_⟩
    · unfold tokenFields
      rw [hres]
      simp [ha]
    · unfold tokenResolveBasic
      simp [ha, hb, htr]
  · have hres : tokenResolve d = dictGetD d "trc20TransferInfo" (.arr []) := by
      unfold tokenResolve
      simp [ha, hb]
    unfold tokenFields
    rw [hres]
    simp [ha]

/-- C5 witness: the resolution cases at concrete records — A present with
B also present (A wins), and a single-object B (wrapped). -/
theorem token_transfer_resolution_witness :
    tokenResolve (.obj [("trc20TransferInfo", .arr [.obj [("symbol", .str "A")]]),
        ("tokenTransferInfo", .obj [("symbol", .str "B")])]) =
      dictGetD (.obj [("trc20TransferInfo", .arr [.obj [("symbol", .str "A")]]),
        ("tokenTransferInfo", .obj [("symbol", .str "B")])])
        "trc20TransferInfo" (.arr [])
    ∧ tokenResolve (.obj [("tokenTransferInfo", .obj [("symbol", .str "B")])]) =
        .arr [.obj [("symbol", .str "B")]]
    ∧ tokenFields (.obj [("toAddress", .str "TMain")]) =
        some ("TMain", "", "TRX", "0.000000") :=
  ⟨token_transfer_resolution.1 _ (by decide),
   token_transfer_resolution.2.1 _ [("symbol", .str "B")] (by decide) rfl (by decide),
   by
    have h := token_transfer_resolution.2.2.2 (.obj [("toAddress", .str "TMain")])
      (by decide) (by decide)
    simpa using h⟩

lemma prepare_transaction_row_head {tx_data : JValue} {h u la : String} {p : Frac}
    {row : List String}
    (hrow : prepare_transaction_row tx_data h u p la = some row) :
    ∃ rest, row = h :: rest := by
  unfold prepare_transaction_row at hrow
  cases tx_data with
  | obj kvs =>
    rcases ht : timeUTCField (JValue.obj kvs) with _ | t
    · simp [ht] at hrow
    · rcases hq : tokenFields (JValue.obj kvs) with _ | tf
      · simp [ht, hq] at hrow
      · rcases hc : costPair (JValue.obj kvs) p with _ | c
        · simp [ht, hq, hc] at hrow
        · simp [ht, hq, hc] at hrow
          exact ⟨_, hrow.symm⟩
  | null => exact absurd hrow (by simp)
  | bool b => exact absurd hrow (by simp)
  | int n => exact absurd hrow (by simp)
  | num q => exact absurd hrow (by simp)
  | str s => exact absurd hrow (by simp)
  | arr xs => exact absurd hrow (by simp)

lemma col_values1_mk (b : Bool) (rows : List (List String)) :
    col_values1 ⟨b, rows⟩ = rows.map (fun r => r.headD "") := rfl

lemma log_transaction_duplicate_case {m : SheetsManager} {h : String}
    (hc : m.is_connected = true) (hm : h ∈ col_values1 m)
    (d : JValue) (u la : String) (p : Frac) :
    log_transaction m noFaults d h u p la =
      (m, false, "Transaction already logged (duplicate hash)") := by
  unfold log_transaction check_duplicate
  simp [hc, hm, noFaults]

/-- C1: the idempotent append protocol on a connected store in a
fault-free environment — (a) a hash already in the hash column makes
`log_transaction` fail as a duplicate with the store unchanged; (b) a
fresh hash with successful row preparation appends exactly one row (the
prepared row) and succeeds; and (c) immediately re-logging the same hash
on the resulting store fails as a duplicate and leaves the rows unchanged. -/
theorem log_transaction_idempotent_append :
    ∀ (m : SheetsManager) (d d2 : JValue) (h u u2 la la2 : String) (p p2 : Frac),
      m.is_connected = true →
      (h ∈ col_values1 m →
        log_transaction m noFaults d h u p la =
          (m, false, "Transaction already logged (duplicate hash)"))
      ∧ (∀ row, h ∉ col_values1 m →
          prepare_transaction_row d h u p la = some row →
          log_transaction m noFaults d h u p la =
            ({ m with rows := m.rows ++ [row] }, true,
              "Transaction successfully logged to Google Sheets")
          ∧ log_transaction { m with rows := m.rows ++ [row] } noFaults
              d2 h u2 p2 la2 =
              ({ m with rows := m.rows ++ [row] }, false,
                "Transaction already logged (duplicate hash)")) := by
  intro m d d2 h u u2 la la2 p p2 hconn
  constructor
  · intro hmem
    exact log_transaction_duplicate_case hconn hmem d u la p
  · intro row hfresh hprep
    obtain ⟨rest, rfl⟩ := prepare_transaction_row_head hprep
    constructor
    · unfold log_transaction check_duplicate
      simp [hconn, hfresh, noFaults, hprep]
    · have hmem2 : h ∈ col_values1 { m with rows := m.rows ++ [h :: rest] } := by
        show h ∈ col_values1 ⟨m.is_connected, m.rows ++ [h :: rest]⟩
        rw [col_values1_mk]
        simp
      exact log_transaction_duplicate_case (by simp [hconn]) hmem2 d2 u2 la2 p2

/-- C1 witness: a connected store with only the header row — logging a
fresh hash appends its prepared row, and logging it again is rejected as
a duplicate with the rows unchanged. -/
theorem log_transaction_idempotent_append_witness :
    log_transaction ⟨true, [["Txn Hash"]]⟩ noFaults (.obj []) "a1b2" "U1"
        ⟨7, 100⟩ "t1" =
      (⟨true, [["Txn Hash"], ["a1b2", "", "", "", "", "", "TRX", "0.000000", "",
        "CONFIRMED", "0", "0.000000", "0.0000", "U1", "t1"]]⟩, true,
        "Transaction successfully logged to Google Sheets")
    ∧ log_transaction ⟨true, [["Txn Hash"], ["a1b2", "", "", "", "", "", "TRX",
        "0.000000", "", "CONFIRMED", "0", "0.000000", "0.0000", "U1", "t1"]]⟩
        noFaults (.obj []) "a1b2" "U2" ⟨7, 100⟩ "t2" =
      (⟨true, [["Txn Hash"], ["a1b2", "", "", "", "", "", "TRX", "0.000000", "",
        "CONFIRMED", "0", "0.000000", "0.0000", "U1", "t1"]]⟩, false,
        "Transaction already logged (duplicate hash)") := by
  have h := (log_transaction_idempotent_append ⟨true, [["Txn Hash"]]⟩ (.obj [])
    (.obj []) "a1b2" "U1" "U2" "t1" "t2" ⟨7, 100⟩ ⟨7, 100⟩ rfl).2
    ["a1b2", "", "", "", "", "", "TRX", "0.000000", "", "CONFIRMED", "0",
      "0.000000", "0.0000", "U1", "t1"] (by decide) (by decide)
  exact ⟨h.1, h.2⟩

/-- The corpus sample hash with every letter upper-cased. -/
def upperSampleHash : String :=
  "3BB06F21D607E8C19B0638C6F9ECD3986C377D47116F737AB1964D324223BEF9"

/-- A connected store whose ledger already holds `upperSampleHash`. -/
def caseStore : SheetsManager := ⟨true, [["Txn Hash"], [upperSampleHash]]⟩

/-- C3 (counterexample): the claim says deduplication is case-insensitive;
but with the upper-case spelling of the sample hash stored, the check for
the lower-case spelling of the same 64-hex value reports "not a
duplicate" and `log_transaction` appends a second row for it. -/
theorem duplicate_check_not_case_insensitive :
    check_duplicate caseStore false sampleHash = false
    ∧ String.mk (upperSampleHash.data.map Char.toLower) = sampleHash
    ∧ upperSampleHash ≠ sampleHash
    ∧ (log_transaction caseStore noFaults (.obj []) sampleHash "U1"
        ⟨7, 100⟩ "t").2.1 = true
    ∧ (log_transaction caseStore noFaults (.obj []) sampleHash "U1"
        ⟨7, 100⟩ "t").1.rows.length = caseStore.rows.length + 1 := by
  refine ⟨by decide, by decide, by decide, by decide, by decide⟩

/-- C3 (amended): deduplication equality is exact, case-sensitive string
matching — on a connected store, `check_duplicate` accepts a hash as a
duplicate iff the identical string occurs in the hash column, so the same
hexadecimal value in a different letter case is not detected. -/
theorem check_duplicate_exact_match :
    ∀ (m : SheetsManager) (h : String), m.is_connected = true →
      (check_duplicate m false h = true ↔ h ∈ col_values1 m) := by
  intro m h hc
  unfold check_duplicate
  simp [hc]

/-- C3 witness: on the concrete store, the exactly-matching spelling is
detected and the lower-case spelling is not. -/
theorem check_duplicate_exact_match_witness :
    check_duplicate caseStore false upperSampleHash = true
    ∧ check_duplicate caseStore false sampleHash = false :=
  ⟨(check_duplicate_exact_match caseStore upperSampleHash rfl).mpr (by decide),
   by decide⟩

/-- C10: the duplicate check fails open — it reports "not a duplicate"
whenever the store is disconnected or the hash-column read raises; as a
consequence, on a connected store whose ledger already contains the hash,
a `log_transaction` call under a transient read failure appends a second
row for that hash instead of surfacing the error. -/
theorem check_duplicate_fails_open :
    (∀ (m : SheetsManager) (rf : Bool) (h : String), m.is_connected = false →
      check_duplicate m rf h = false)
    ∧ (∀ (m : SheetsManager) (h : String), m.is_connected = true →
        check_duplicate m true h = false)
    ∧ (∀ (m : SheetsManager) (d : JValue) (h u la : String) (p : Frac)
        (row : List String),
        m.is_connected = true →
        h ∈ col_values1 m →
        prepare_transaction_row d h u p la = some row →
        log_transaction m ⟨true, none⟩ d h u p la =
          ({ m with rows := m.rows ++ [row] }, true,
            "Transaction successfully logged to Google Sheets")) := by
  refine ⟨fun m rf h hc => ?_, fun m h hc => ?_,
    fun m d h u la p row hc hmem hprep => ?_⟩
  · unfold check_duplicate
    simp [hc]
  · unfold check_duplicate
    simp [hc]
  · obtain ⟨rest, rfl⟩ := prepare_transaction_row_head hprep
    unfold log_transaction check_duplicate
    simp [hc, hprep]

/-- C10 witness: a connected store already holding hash `a1b2`; under a
read failure the same hash is logged again, yielding two rows with that
hash. -/
theorem check_duplicate_fails_open_witness :
    check_duplicate ⟨false, []⟩ false "a1b2" = false
    ∧ check_duplicate ⟨true, [["Txn Hash"], ["a1b2"]]⟩ true "a1b2" = false
    ∧ log_transaction ⟨true, [["Txn Hash"], ["a1b2"]]⟩ ⟨true, none⟩ (.obj [])
        "a1b2" "U1" ⟨7, 100⟩ "t" =
      (⟨true, [["Txn Hash"], ["a1b2"], ["a1b2", "", "", "", "", "", "TRX",
        "0.000000", "", "CONFIRMED", "0", "0.000000", "0.0000", "U1", "t"]]⟩,
        true, "Transaction successfully logged to Google Sheets") :=
  ⟨check_duplicate_fails_open.1 ⟨false, []⟩ false "a1b2" rfl,
   check_duplicate_fails_open.2.1 ⟨true, [["Txn Hash"], ["a1b2"]]⟩ "a1b2" rfl,
   check_duplicate_fails_open.2.2 ⟨true, [["Txn Hash"], ["a1b2"]]⟩ (.obj [])
     "a1b2" "U1" "t" ⟨7, 100⟩ ["a1b2", "", "", "", "", "", "TRX", "0.000000",
       "", "CONFIRMED", "0", "0.000000", "0.0000", "U1", "t"]
     rfl (by decide) (by decide)⟩

/-- Is the value a JSON object (a Python dict)? -/
def isObj : JValue → Bool
  | .obj _ => true
  | _ => false

/-- Structurally well-shaped `timestamp` field: absent/falsy, or an
integer millisecond epoch in a realistic range (nonnegative, before year
2100), keeping `fromtimestamp` inside `datetime`'s supported years. -/
def wellShapedTimestamp (d : JValue) : Bool :=
  match dictGetD d "timestamp" .null with
  | .int n => decide (0 ≤ n) && decide (n ≤ 4102444800000)
  | v => !truthy v

/-- Structurally well-shaped token-transfer data: the resolved
`trc20_transfers` value is either falsy or a list whose first element is
an object (anything else makes `len()`, `[0]` or `.get` raise). -/
def wellShapedToken (d : JValue) : Bool :=
  match tokenResolve d with
  | .arr [] => true
  | .arr (x :: _) => isObj x
  | v => !truthy v

/-- Structurally well-shaped `cost` field: not a dict, or a dict whose
`fee` and `energy_fee` entries are numeric (so the fee sum does not
raise). -/
def wellShapedCost (d : JValue) : Bool :=
  match dictGetD d "cost" (.obj []) with
  | .obj kvs => (numOf (dictGetD (.obj kvs) "fee" (.int 0))).isSome
      && (numOf (dictGetD (.obj kvs) "energy_fee" (.int 0))).isSome
  | _ => true

lemma civilFromDays_year_bounds (z : Int) (h1 : 0 ≤ z) (h2 : z ≤ 47482) :
    1 ≤ (civilFromDays z).1 ∧ (civilFromDays z).1 ≤ 9999 := by
  unfold civilFromDays
  simp only
  rw [Int.fdiv_eq_ediv _ (by norm_num)]
  split_ifs <;> constructor <;> omega

lemma formatEpochSeconds_isSome (secs : Int) (h1 : 0 ≤ secs)
    (h2 : secs ≤ 4102444800) : ∃ s, formatEpochSeconds secs = some s := by
  unfold formatEpochSeconds
  simp only
  have hb : 0 ≤ Int.fdiv secs 86400 ∧ Int.fdiv secs 86400 ≤ 47482 := by
    rw [Int.fdiv_eq_ediv _ (by norm_num)]
    omega
  have hy := civilFromDays_year_bounds (Int.fdiv secs 86400) hb.1 hb.2
  rw [if_pos hy]
  exact ⟨_, rfl⟩


lemma fracOfInt_div_floor (n k : Int) :
    (Frac.ofInt n / Frac.ofInt k).floor = Int.fdiv n k := by
  show Int.fdiv (n * 1) (1 * k) = Int.fdiv n k
  norm_num

lemma timeUTCField_isSome_of_wellShaped {d : JValue}
    (hw : wellShapedTimestamp d = true) : (timeUTCField d).isSome = true := by
  unfold wellShapedTimestamp at hw
  cases hts : dictGetD d "timestamp" .null with
  | int n =>
    rw [hts] at hw
    simp at hw
    by_cases hz : n = 0
    · simp [timeUTCField, hts, truthy, hz]
    · obtain ⟨s, hs⟩ := formatEpochSeconds_isSome (Int.fdiv n 1000)
        (by rw [Int.fdiv_eq_ediv _ (by norm_num)]; omega)
        (by rw [Int.fdiv_eq_ediv _ (by norm_num)]; omega)
      simp [timeUTCField, hts, truthy, hz, numOf, fracOfInt_div_floor, hs]
  | null => simp [timeUTCField, hts, truthy]
  | bool b =>
    rw [hts] at hw
    have hv : truthy (JValue.bool b) = false := by simpa using hw
    simp [timeUTCField, hts, hv]
  | num q =>
    rw [hts] at hw
    have hv : truthy (JValue.num q) = false := by simpa using hw
    simp [timeUTCField, hts, hv]
  | str s =>
    rw [hts] at hw
    have hv : truthy (JValue.str s) = false := by simpa using hw
    simp [timeUTCField, hts, hv]
  | arr xs =>
    rw [hts] at hw
    have hv : truthy (JValue.arr xs) = false := by simpa using hw
    simp [timeUTCField, hts, hv]
  | obj kvs =>
    rw [hts] at hw
    have hv : truthy (JValue.obj kvs) = false := by simpa using hw
    simp [timeUTCField, hts, hv]

lemma tokenFields_isSome_of_wellShaped {d : JValue}
    (hw : wellShapedToken d = true) : (tokenFields d).isSome = true := by
  unfold wellShapedToken at hw
  cases hres : tokenResolve d with
  | arr xs =>
    rw [hres] at hw
    cases xs with
    | nil => simp [tokenFields, hres, truthy]
    | cons x rest =>
      cases x with
      | obj kvs2 => simp [tokenFields, hres, truthy, pyLen, pyIndex0]
      | null => simp [isObj] at hw
      | bool b => simp [isObj] at hw
      | int n => simp [isObj] at hw
      | num q => simp [isObj] at hw
      | str s => simp [isObj] at hw
      | arr ys => simp [isObj] at hw
  | null => simp [tokenFields, hres, truthy]
  | bool b =>
    rw [hres] at hw
    have hv : truthy (JValue.bool b) = false := by simpa using hw
    simp [tokenFields, hres, hv]
  | int n =>
    rw [hres] at hw
    have hv : truthy (JValue.int n) = false := by simpa using hw
    simp [tokenFields, hres, hv]
  | num q =>
    rw [hres] at hw
    have hv : truthy (JValue.num q) = false := by simpa using hw
    simp [tokenFields, hres, hv]
  | str s =>
    rw [hres] at hw
    have hv : truthy (JValue.str s) = false := by simpa using hw
    simp [tokenFields, hres, hv]
  | obj kvs =>
    rw [hres] at hw
    have hv : truthy (JValue.obj kvs) = false := by simpa using hw
    simp [tokenFields, hres, hv]

lemma costPair_isSome_of_wellShaped {d : JValue} (p : Frac)
    (hw : wellShapedCost d = true) : (costPair d p).isSome = true := by
  unfold wellShapedCost at hw
  cases hc : dictGetD d "cost" (.obj []) with
  | obj kvs =>
    rw [hc] at hw
    simp only [Bool.and_eq_true] at hw
    obtain ⟨f, hf⟩ := Option.isSome_iff_exists.mp hw.1
    obtain ⟨e, he⟩ := Option.isSome_iff_exists.mp hw.2
    simp [costPair, hc, hf, he]
  | null => simp [costPair, hc]
  | bool b => simp [costPair, hc]
  | int n => simp [costPair, hc]
  | num q => simp [costPair, hc]
  | str s => simp [costPair, hc]
  | arr xs => simp [costPair, hc]

/-- A raw record whose `timestamp` is a (truthy) non-numeric string:
`datetime.fromtimestamp(timestamp / 1000)` raises on it. -/
def malformedTimestampRecord : JValue := .obj [("timestamp", .str "abc")]

/-- C2 (counterexample): normalization is not total — on a record with a
malformed (string) `timestamp`, `prepare_transaction_row` takes the
`except` branch and returns `None` instead of a defaulted record, and
`log_transaction` on a connected store then fails with
"Failed to prepare transaction data" rather than logging. -/
theorem normalization_fails_on_malformed_timestamp :
    prepare_transaction_row malformedTimestampRecord "a1b2" "U1" ⟨7, 100⟩ "t"
      = none
    ∧ log_transaction ⟨true, [["Txn Hash"]]⟩ noFaults malformedTimestampRecord
        "a1b2" "U1" ⟨7, 100⟩ "t" =
      (⟨true, [["Txn Hash"]]⟩, false, "Failed to prepare transaction data") :=
  ⟨rfl, rfl⟩

/-- C2 (amended): normalization is total on structurally well-shaped raw
records — any record that is a JSON object whose `timestamp` is absent,
falsy, or an in-range integer, whose resolved token-transfer value is a
list of objects (or empty), and whose `cost` is either not a dict or a
dict with numeric fees, normalizes to a fully-populated 15-cell row, with
missing fields degrading to their defaults; malformed fields outside this
shape (e.g. a string `timestamp`) instead make `prepare_transaction_row`
return `None`, which `log_transaction` reports as a preparation failure. -/
theorem normalization_total_on_well_shaped :
    ∀ (d : JValue) (h u la : String) (p : Frac),
      isObj d = true →
      wellShapedTimestamp d = true →
      wellShapedToken d = true →
      wellShapedCost d = true →
      ∃ row, prepare_transaction_row d h u p la = some row ∧ row.length = 15 := by
  intro d h u la p hobj hts htok hcost
  obtain ⟨t, ht⟩ := Option.isSome_iff_exists.mp
    (timeUTCField_isSome_of_wellShaped hts)
  obtain ⟨tf, htf⟩ := Option.isSome_iff_exists.mp
    (tokenFields_isSome_of_wellShaped htok)
  obtain ⟨c, hc⟩ := Option.isSome_iff_exists.mp
    (costPair_isSome_of_wellShaped p hcost)
  cases d with
  | obj kvs =>
    refine ⟨[h, pyStr (dictGetD (JValue.obj kvs) "block" (.str "")), t,
      pyStr (dictGetD (JValue.obj kvs) "ownerAddress" (.str "")),
      tf.1, tf.2.1, tf.2.2.1, tf.2.2.2,
      pyStr (dictGetD (JValue.obj kvs) "contractRet" (.str "")),
      if truthy (dictGetD (JValue.obj kvs) "confirmed" (.bool true)) then
        "CONFIRMED" else "PENDING",
      pyStr (dictGetD (JValue.obj kvs) "confirmations" (.int 0)),
      pyFormatFixed c.1 6, pyFormatFixed c.2 4, u, la], ?_, rfl⟩
    unfold prepare_transaction_row
    rw [ht, htf, hc]
    rfl
  | null => simp [isObj] at hobj
  | bool b => simp [isObj] at hobj
  | int n => simp [isObj] at hobj
  | num q => simp [isObj] at hobj
  | str s => simp [isObj] at hobj
  | arr xs => simp [isObj] at hobj

/-- C2 witness: a well-shaped record with several fields absent (they
default) and several present normalizes to a 15-cell row. -/
theorem normalization_total_witness :
    ∃ row, prepare_transaction_row
        (.obj [("timestamp", .int 1718000000000), ("block", .int 62000000),
          ("cost", .obj [("fee", .int 1100000)])])
        "a1b2" "U9" ⟨12, 100⟩ "L" = some row ∧ row.length = 15 :=
  normalization_total_on_well_shaped
    (.obj [("timestamp", .int 1718000000000), ("block", .int 62000000),
      ("cost", .obj [("fee", .int 1100000)])])
    "a1b2" "U9" "L" ⟨12, 100⟩ (by decide) (by decide) (by decide) (by decide)

end CryptoBot
